import Mathlib

/-!
# Verification of the Real_chat live-connection registry and broadcast engine

Shallow embedding of `WebSocketsManagement.py` (class `ConnectionManager`)
and of the dispatcher in `WebSocketsRoutes.py`.

Python dictionaries are modelled by `StrMap`: a finite key set together
with a value function; `lookup` is defined only on keys in the key set.
Python sets of strings are modelled by `Finset String`.  A loop that
updates each key of a dictionary independently (such as the cascade in
`disconnect`, which discards the user from every conversation member set)
is rendered pointwise over the value function, which is equivalent because
each iteration touches a distinct key.

A WebSocket transport is abstracted by a single `alive` flag: sending on
an alive socket succeeds and sending on a dead one raises, which is the
only behaviour of the transport the registry code observes.
-/

/-- A Python dict with string keys: a finite key set plus a value function.
Values at points outside `keys` are irrelevant (lookup is gated on `keys`). -/
structure StrMap (V : Type) where
  keys : Finset String
  val : String → V

namespace StrMap

variable {V : Type}

/-- `d.get(k)` returning `None` when absent. -/
def lookup (m : StrMap V) (k : String) : Option V :=
  if k ∈ m.keys then some (m.val k) else none

/-- `k in d`. -/
def contains (m : StrMap V) (k : String) : Prop := k ∈ m.keys

instance (m : StrMap V) (k : String) : Decidable (m.contains k) := by
  unfold contains; infer_instance

/-- `d[k] = v` (insert or overwrite). -/
def insert (m : StrMap V) (k : String) (v : V) : StrMap V :=
  ⟨Insert.insert k m.keys, fun x => if x = k then v else m.val x⟩

/-- `d.pop(k, None)` / `del d[k]`: remove the key (value function untouched,
which is unobservable through `lookup`). -/
def erase (m : StrMap V) (k : String) : StrMap V :=
  ⟨m.keys.erase k, m.val⟩

/-- `d.get(k, default)`. -/
def getD (m : StrMap V) (k : String) (dflt : V) : V :=
  (m.lookup k).getD dflt

/-- The empty dict `{}`. -/
def emptyMap (dflt : V) : StrMap V := ⟨∅, fun _ => dflt⟩

theorem lookup_insert_self (m : StrMap V) (k : String) (v : V) :
    (m.insert k v).lookup k = some v := by
  simp [lookup, insert]

theorem lookup_insert_ne (m : StrMap V) {k x : String} (v : V) (h : x ≠ k) :
    (m.insert k v).lookup x = m.lookup x := by
  simp [lookup, insert, h, Finset.mem_insert]

theorem lookup_erase_self (m : StrMap V) (k : String) :
    (m.erase k).lookup k = none := by
  simp [lookup, erase]

theorem lookup_erase_ne (m : StrMap V) {k x : String} (h : x ≠ k) :
    (m.erase k).lookup x = m.lookup x := by
  simp [lookup, erase, Finset.mem_erase, h]

theorem lookup_eq_some_iff {m : StrMap V} {k : String} {v : V} :
    m.lookup k = some v ↔ k ∈ m.keys ∧ m.val k = v := by
  unfold lookup
  by_cases h : k ∈ m.keys <;> simp [h]

theorem lookup_eq_none_iff {m : StrMap V} {k : String} :
    m.lookup k = none ↔ k ∉ m.keys := by
  unfold lookup
  by_cases h : k ∈ m.keys <;> simp [h]

end StrMap

/-- One live transport session.  `alive = true` means `send_text` succeeds;
`alive = false` means `send_text` raises. -/
structure WebSocket where
  alive : Bool
deriving DecidableEq, Repr

/-- The `data` payload of an outbound envelope, one constructor per payload
shape built by the source. -/
inductive EnvData where
  | typing (conversation_id user_id : String)
  | userStatus (conversation_id user_id status : String)
  | userJoined (conversation_id user_id : String)
  | userLeft (conversation_id user_id : String)
  | messageReceived (conversation_id sender_id content message_type : String)
      (created_at : String) (reply_to_message_id : Option String)
  | errorData (message : String)
deriving DecidableEq, Repr

/-- The wire envelope `{event_type, data, timestamp}`. -/
structure Envelope where
  event_type : String
  data : EnvData
  timestamp : String
deriving DecidableEq, Repr

/-- The registry state: the three dictionaries created in
`ConnectionManager.__init__`. -/
structure ConnectionManager where
  /-- `{user_id: {connection_id: websocket}}` -/
  active_connections : StrMap (StrMap WebSocket)
  /-- `{user_id: set of conversation_ids}` -/
  user_conversations : StrMap (Finset String)
  /-- `{conversation_id: set of user_ids}` -/
  conversation_participants : StrMap (Finset String)

namespace ConnectionManager

/-- `ConnectionManager()`: all three dicts empty. -/
def init : ConnectionManager :=
  { active_connections := StrMap.emptyMap (StrMap.emptyMap ⟨true⟩)
    user_conversations := StrMap.emptyMap ∅
    conversation_participants := StrMap.emptyMap ∅ }

/-- `connect`: accept the socket, create the user's (empty) connection dict
if absent, store the handle, then `load_user_conversations` (which only
creates an empty conversation set if the user has none). -/
def connect (s : ConnectionManager) (user_id connection_id : String)
    (websocket : WebSocket) : ConnectionManager :=
  let conns := s.active_connections.getD user_id (StrMap.emptyMap ⟨true⟩)
  let ac := s.active_connections.insert user_id (conns.insert connection_id websocket)
  let uc :=
    if s.user_conversations.contains user_id then s.user_conversations
    else s.user_conversations.insert user_id ∅
  { s with active_connections := ac, user_conversations := uc }

/-- `disconnect`: pop the connection; if the user's dict is now empty,
delete the user from the connection index and cascade: discard the user
from every conversation's member set it is tracked in, and delete its
reverse-index entry. -/
def disconnect (s : ConnectionManager) (user_id connection_id : String) :
    ConnectionManager :=
  match s.active_connections.lookup user_id with
  | none => s
  | some conns =>
    let conns' := conns.erase connection_id
    if conns'.keys = ∅ then
      let ac := s.active_connections.erase user_id
      match s.user_conversations.lookup user_id with
      | none => { s with active_connections := ac }
      | some convs =>
        { active_connections := ac
          user_conversations := s.user_conversations.erase user_id
          conversation_participants :=
            ⟨s.conversation_participants.keys,
             fun c =>
               if c ∈ convs ∧ c ∈ s.conversation_participants.keys then
                 (s.conversation_participants.val c).erase user_id
               else s.conversation_participants.val c⟩ }
    else
      { s with active_connections := s.active_connections.insert user_id conns' }

/-- `add_user_to_conversation`. -/
def add_user_to_conversation (s : ConnectionManager)
    (user_id conversation_id : String) : ConnectionManager :=
  let uc :=
    if s.user_conversations.contains user_id then s.user_conversations
    else s.user_conversations.insert user_id ∅
  let uc := uc.insert user_id (Insert.insert conversation_id (uc.getD user_id ∅))
  let cp :=
    if s.conversation_participants.contains conversation_id then
      s.conversation_participants
    else s.conversation_participants.insert conversation_id ∅
  let cp := cp.insert conversation_id (Insert.insert user_id (cp.getD conversation_id ∅))
  { s with user_conversations := uc, conversation_participants := cp }

/-- `remove_user_from_conversation`: a `discard` on each side; the
conversation key itself is never deleted. -/
def remove_user_from_conversation (s : ConnectionManager)
    (user_id conversation_id : String) : ConnectionManager :=
  let uc :=
    if s.user_conversations.contains user_id then
      s.user_conversations.insert user_id
        ((s.user_conversations.getD user_id ∅).erase conversation_id)
    else s.user_conversations
  let cp :=
    if s.conversation_participants.contains conversation_id then
      s.conversation_participants.insert conversation_id
        ((s.conversation_participants.getD conversation_id ∅).erase user_id)
    else s.conversation_participants
  { s with user_conversations := uc, conversation_participants := cp }

/-- `get_user_connection_count`. -/
def get_user_connection_count (s : ConnectionManager) (user_id : String) : Nat :=
  match s.active_connections.lookup user_id with
  | some conns => conns.keys.card
  | none => 0

/-- `is_user_online`: `user_id in active_connections and len(...) > 0`. -/
def is_user_online (s : ConnectionManager) (user_id : String) : Bool :=
  match s.active_connections.lookup user_id with
  | some conns => decide (0 < conns.keys.card)
  | none => false

/-- `get_user_conversations`. -/
def get_user_conversations (s : ConnectionManager) (user_id : String) :
    Finset String :=
  s.user_conversations.getD user_id ∅

/-- `get_conversation_participants`. -/
def get_conversation_participants (s : ConnectionManager)
    (conversation_id : String) : Finset String :=
  s.conversation_participants.getD conversation_id ∅

/-- The set of connection ids currently registered for a user. -/
def connIds (s : ConnectionManager) (user_id : String) : Finset String :=
  match s.active_connections.lookup user_id with
  | some conns => conns.keys
  | none => ∅

/-- The connection ids of a user whose socket is alive: exactly the sends
that succeed. -/
def aliveConnIds (s : ConnectionManager) (user_id : String) : Finset String :=
  match s.active_connections.lookup user_id with
  | some conns => conns.keys.filter (fun k => (conns.val k).alive = true)
  | none => ∅

/-- `send_personal_message`: try every connection of the user; a send on a
dead socket raises and the connection id is collected in `dead_connections`;
afterwards the dead connections are popped, and if the user's dict is now
empty the user is deleted from the connection index.  Returns the set of
connection ids that actually received the message, plus the new state.
Note that only `active_connections` is touched: there is no conversation
cleanup here. -/
def send_personal_message (s : ConnectionManager) (_message : Envelope)
    (user_id : String) : Finset String × ConnectionManager :=
  match s.active_connections.lookup user_id with
  | none => (∅, s)
  | some conns =>
    let delivered := conns.keys.filter (fun k => (conns.val k).alive = true)
    let conns' : StrMap WebSocket := ⟨delivered, conns.val⟩
    if conns'.keys = ∅ then
      (delivered, { s with active_connections := s.active_connections.erase user_id })
    else
      (delivered, { s with active_connections := s.active_connections.insert user_id conns' })

/-- Sequential sends of one message to a list of users (the body of the
`for user_id in participants` loop of `broadcast_to_conversation`).
Accumulates every `(user_id, connection_id)` pair that received the
message. -/
def sendAll (s : ConnectionManager) (message : Envelope) :
    List String → Finset (String × String) × ConnectionManager
  | [] => (∅, s)
  | u :: rest =>
    let (d, s₁) := s.send_personal_message message u
    let (ds, s₂) := sendAll s₁ message rest
    (d.image (fun k => (u, k)) ∪ ds, s₂)

/-- The outcome of one `broadcast_to_conversation` call: the users for
which `send_personal_message` was invoked (in loop order), the
`(user, connection)` pairs that received the message, and the state after
all pruning. -/
structure BroadcastOut where
  attempted : List String
  delivered : Finset (String × String)
  state : ConnectionManager

/-- `broadcast_to_conversation`: if the conversation has a participant
entry, send to every participant other than `exclude_user`.  `exclude_user
= none` models the Python default `exclude_user=None`, which no string
participant ever equals.  Python iterates the participant set in an
unspecified order; the model fixes the sorted order, an instance of it. -/
def broadcast_to_conversation (s : ConnectionManager) (message : Envelope)
    (conversation_id : String) (exclude_user : Option String) : BroadcastOut :=
  match s.conversation_participants.lookup conversation_id with
  | none => ⟨[], ∅, s⟩
  | some participants =>
    let targets :=
      (participants.sort (· ≤ ·)).filter (fun u => decide (some u ≠ exclude_user))
    let (ds, s') := s.sendAll message targets
    ⟨targets, ds, s'⟩

/-- The record returned by `get_stats`.  The average is Python float
division of two non-negative integers, modelled exactly in ℚ. -/
structure Stats where
  total_users_online : Nat
  total_connections : Nat
  total_conversations : Nat
  average_connections_per_user : ℚ
deriving DecidableEq, Repr

/-- `get_stats`: `total_connections` sums the sizes of all per-user
connection dicts; the average divides by `max(1, len(active_connections))`. -/
def get_stats (s : ConnectionManager) : Stats :=
  let total_connections :=
    Finset.sum s.active_connections.keys (fun u => (s.active_connections.val u).keys.card)
  { total_users_online := s.active_connections.keys.card
    total_connections := total_connections
    total_conversations := s.conversation_participants.keys.card
    average_connections_per_user :=
      (total_connections : ℚ) / (max 1 s.active_connections.keys.card : ℕ) }

/-- `send_typing_indicator`: build the typing envelope and broadcast it to
the conversation excluding the typist. -/
def send_typing_indicator (s : ConnectionManager)
    (conversation_id user_id : String) (is_typing : Bool) (now : String) :
    Envelope × BroadcastOut :=
  let message : Envelope :=
    { event_type := if is_typing then "typing_start" else "typing_stop"
      data := .typing conversation_id user_id
      timestamp := now }
  (message, s.broadcast_to_conversation message conversation_id (some user_id))

/-- `notify_user_joined_conversation`. -/
def notify_user_joined_conversation (s : ConnectionManager)
    (conversation_id user_id now : String) : Envelope × BroadcastOut :=
  let message : Envelope :=
    { event_type := "user_joined_conversation"
      data := .userJoined conversation_id user_id
      timestamp := now }
  (message, s.broadcast_to_conversation message conversation_id (some user_id))

/-- `notify_user_left_conversation`. -/
def notify_user_left_conversation (s : ConnectionManager)
    (conversation_id user_id now : String) : Envelope × BroadcastOut :=
  let message : Envelope :=
    { event_type := "user_left_conversation"
      data := .userLeft conversation_id user_id
      timestamp := now }
  (message, s.broadcast_to_conversation message conversation_id (some user_id))

end ConnectionManager

/-!
## The event dispatcher (`WebSocketsRoutes.py`)

`datetime.utcnow()` is modelled by an explicit `now` parameter.  The
database session threaded through the handlers is unused by every code
path that is live in the source (all database calls are commented out), so
it is omitted.  Direct sends on the reading connection's own socket
(`websocket.send_text` of error envelopes) are modelled as always
succeeding: the socket just delivered an inbound frame.
-/

/-- The `data` dict of an inbound frame, as read by the handlers with
`data.get(...)`: absent keys yield `none`. -/
structure InData where
  conversation_id : Option String := none
  content : Option String := none
  message_type : Option String := none
  reply_to_message_id : Option String := none
deriving DecidableEq, Repr

/-- One inbound frame, after `websocket.receive_text`: either text that
`json.loads` rejects, or a decoded object whose `event_type` key may be
absent (`dict.get` yields `None`). -/
inductive Inbound where
  | undecodable
  | decoded (event_type : Option String) (data : InData)
deriving DecidableEq, Repr

/-- One broadcast performed while handling an event: the envelope, the
users for which a send was attempted, and the connections that received
it. -/
structure Fanout where
  envelope : Envelope
  attempted : List String
  delivered : Finset (String × String)

/-- The observable outcome of `handle_websocket_event`: envelopes sent
directly back on the sender's own socket, broadcasts performed, and the
registry state afterwards. -/
structure EventOut where
  toSender : List Envelope
  fanouts : List Fanout
  state : ConnectionManager

/-- An `error` envelope `{event_type: "error", data: {message: ...}}`. -/
def errorEnvelope (message now : String) : Envelope :=
  { event_type := "error", data := .errorData message, timestamp := now }

/-- `handle_message_send`: missing or falsy (empty) `conversation_id` or
`content` raises `ValueError`, re-raised as `HTTPException(400, ...)`,
whose `str` the dispatcher turns into an error envelope.  Otherwise the
`message_received` envelope is built and broadcast to the conversation
excluding the sender. -/
def handle_message_send (data : InData) (user_id now : String)
    (s : ConnectionManager) : Except String (Fanout × ConnectionManager) :=
  match data.conversation_id, data.content with
  | some conversation_id, some content =>
    if conversation_id = "" ∨ content = "" then
      .error "400: conversation_id and content are required"
    else
      let message_data : Envelope :=
        { event_type := "message_received"
          data := .messageReceived conversation_id user_id content
            (data.message_type.getD "text") now data.reply_to_message_id
          timestamp := now }
      let b := s.broadcast_to_conversation message_data conversation_id (some user_id)
      .ok (⟨message_data, b.attempted, b.delivered⟩, b.state)
  | _, _ => .error "400: conversation_id and content are required"

/-- `handle_typing_start` / `handle_typing_stop`: a falsy `conversation_id`
(`if conversation_id:` — absent key or empty string) is silently ignored. -/
def handle_typing (data : InData) (user_id : String) (is_typing : Bool)
    (now : String) (s : ConnectionManager) : EventOut :=
  match data.conversation_id with
  | none => ⟨[], [], s⟩
  | some conversation_id =>
    if conversation_id = "" then ⟨[], [], s⟩
    else
      let (env, b) := s.send_typing_indicator conversation_id user_id is_typing now
      ⟨[], [⟨env, b.attempted, b.delivered⟩], b.state⟩

/-- `handle_join_conversation`: a falsy `conversation_id`
(`if not conversation_id: return` — absent key or empty string) returns
silently; otherwise the registry join happens first, then the notification
broadcast. -/
def handle_join_conversation (data : InData) (user_id now : String)
    (s : ConnectionManager) : EventOut :=
  match data.conversation_id with
  | none => ⟨[], [], s⟩
  | some conversation_id =>
    if conversation_id = "" then ⟨[], [], s⟩
    else
      let s₁ := s.add_user_to_conversation user_id conversation_id
      let (env, b) := s₁.notify_user_joined_conversation conversation_id user_id now
      ⟨[], [⟨env, b.attempted, b.delivered⟩], b.state⟩

/-- `handle_leave_conversation`: a falsy `conversation_id`
(`if not conversation_id: return` — absent key or empty string) returns
silently; otherwise the `user_left_conversation` broadcast happens first,
on the pre-leave state, and only then is the user removed from the
membership indexes. -/
def handle_leave_conversation (data : InData) (user_id now : String)
    (s : ConnectionManager) : EventOut :=
  match data.conversation_id with
  | none => ⟨[], [], s⟩
  | some conversation_id =>
    if conversation_id = "" then ⟨[], [], s⟩
    else
      let (env, b) := s.notify_user_left_conversation conversation_id user_id now
      let s' := b.state.remove_user_from_conversation user_id conversation_id
      ⟨[], [⟨env, b.attempted, b.delivered⟩], s'⟩

/-- `handle_websocket_event`: dispatch on `event_type` (which is `none`
when the inbound object has no `event_type` key; no string compares equal
to it, so dispatch falls through to the unknown-event error reply).  A
handler exception (only `handle_message_send` raises) is caught here and
answered with an error envelope on the sender's socket. -/
def handle_websocket_event (event_type : Option String) (data : InData)
    (user_id now : String) (s : ConnectionManager) : EventOut :=
  if event_type = some "message_send" then
    match handle_message_send data user_id now s with
    | .ok (f, s') => ⟨[], [f], s'⟩
    | .error e => ⟨[errorEnvelope e now], [], s⟩
  else if event_type = some "typing_start" then
    handle_typing data user_id true now s
  else if event_type = some "typing_stop" then
    handle_typing data user_id false now s
  else if event_type = some "join_conversation" then
    handle_join_conversation data user_id now s
  else if event_type = some "leave_conversation" then
    handle_leave_conversation data user_id now s
  else
    let etStr := match event_type with | some t => t | none => "None"
    ⟨[errorEnvelope ("Unknown event type: " ++ etStr) now], [], s⟩

/-- The outcome of one iteration of the `while True` read loop of
`websocket_endpoint`: what was sent, the new registry state, and whether
the loop keeps running (`connectionOpen`). -/
structure LoopOut where
  toSender : List Envelope
  fanouts : List Fanout
  state : ConnectionManager
  connectionOpen : Bool

/-- One iteration of the read loop on a received frame.  If `json.loads`
raises, the exception escapes the loop to the endpoint's generic handler,
which disconnects the connection; no error envelope is produced and the
loop ends.  Otherwise the decoded event is dispatched and the loop
continues (`handle_websocket_event` swallows handler exceptions). -/
def read_loop_step (raw : Inbound) (user_id connection_id now : String)
    (s : ConnectionManager) : LoopOut :=
  match raw with
  | .undecodable => ⟨[], [], s.disconnect user_id connection_id, false⟩
  | .decoded event_type data =>
    let r := handle_websocket_event event_type data user_id now s
    ⟨r.toSender, r.fanouts, r.state, true⟩

/-!
## Helper lemmas about the broadcast engine
-/

namespace ConnectionManager

theorem send_personal_message_uc (s : ConnectionManager) (m : Envelope) (u : String) :
    ((s.send_personal_message m u).2).user_conversations = s.user_conversations := by
  unfold send_personal_message
  cases s.active_connections.lookup u with
  | none => rfl
  | some conns => dsimp only; split <;> rfl

theorem send_personal_message_cp (s : ConnectionManager) (m : Envelope) (u : String) :
    ((s.send_personal_message m u).2).conversation_participants =
      s.conversation_participants := by
  unfold send_personal_message
  cases s.active_connections.lookup u with
  | none => rfl
  | some conns => dsimp only; split <;> rfl

theorem send_personal_message_ac_ne (s : ConnectionManager) (m : Envelope)
    {u v : String} (h : v ≠ u) :
    ((s.send_personal_message m u).2).active_connections.lookup v =
      s.active_connections.lookup v := by
  unfold send_personal_message
  cases s.active_connections.lookup u with
  | none => rfl
  | some conns =>
    dsimp only
    split
    · exact s.active_connections.lookup_erase_ne h
    · exact s.active_connections.lookup_insert_ne _ h

theorem send_personal_message_delivered (s : ConnectionManager) (m : Envelope)
    (u : String) :
    (s.send_personal_message m u).1 = s.aliveConnIds u := by
  unfold send_personal_message aliveConnIds
  cases s.active_connections.lookup u with
  | none => rfl
  | some conns => dsimp only; split <;> rfl

theorem send_personal_message_connIds_self (s : ConnectionManager) (m : Envelope)
    (u : String) :
    ((s.send_personal_message m u).2).connIds u = s.aliveConnIds u := by
  unfold send_personal_message
  cases h : s.active_connections.lookup u with
  | none => simp [connIds, aliveConnIds, h]
  | some conns =>
    dsimp only
    split
    · rename_i hempty
      simp only [connIds, StrMap.lookup_erase_self]
      simp only [aliveConnIds, h]
      exact hempty.symm
    · simp only [connIds, StrMap.lookup_insert_self, aliveConnIds, h]

theorem send_personal_message_aliveConnIds (s : ConnectionManager) (m : Envelope)
    (u w : String) :
    ((s.send_personal_message m u).2).aliveConnIds w = s.aliveConnIds w := by
  by_cases hw : w = u
  · subst hw
    unfold send_personal_message
    cases h : s.active_connections.lookup w with
    | none => rfl
    | some conns =>
      dsimp only
      split
      · rename_i hempty
        simp only [aliveConnIds, StrMap.lookup_erase_self, h]
        rw [hempty]
      · simp only [aliveConnIds, StrMap.lookup_insert_self, h]
        rw [Finset.filter_filter]
        exact Finset.filter_congr (fun x _ => by tauto)
  · unfold aliveConnIds
    rw [send_personal_message_ac_ne s m hw]

theorem sendAll_uc (s : ConnectionManager) (m : Envelope) (L : List String) :
    ((s.sendAll m L).2).user_conversations = s.user_conversations := by
  induction L generalizing s with
  | nil => rfl
  | cons a rest ih =>
    show ((((s.send_personal_message m a).2).sendAll m rest).2).user_conversations = _
    rw [ih, send_personal_message_uc]

theorem sendAll_cp (s : ConnectionManager) (m : Envelope) (L : List String) :
    ((s.sendAll m L).2).conversation_participants = s.conversation_participants := by
  induction L generalizing s with
  | nil => rfl
  | cons a rest ih =>
    show ((((s.send_personal_message m a).2).sendAll m rest).2).conversation_participants = _
    rw [ih, send_personal_message_cp]

theorem sendAll_ac_notMem (s : ConnectionManager) (m : Envelope) {L : List String}
    {v : String} (h : v ∉ L) :
    ((s.sendAll m L).2).active_connections.lookup v =
      s.active_connections.lookup v := by
  induction L generalizing s with
  | nil => rfl
  | cons a rest ih =>
    show ((((s.send_personal_message m a).2).sendAll m rest).2).active_connections.lookup v = _
    rw [ih _ (fun hv => h (List.mem_cons_of_mem a hv)),
      send_personal_message_ac_ne s m (fun hv => h (List.mem_cons.mpr (Or.inl hv)))]

theorem sendAll_aliveConnIds (s : ConnectionManager) (m : Envelope)
    (L : List String) (w : String) :
    ((s.sendAll m L).2).aliveConnIds w = s.aliveConnIds w := by
  induction L generalizing s with
  | nil => rfl
  | cons a rest ih =>
    show ((((s.send_personal_message m a).2).sendAll m rest).2).aliveConnIds w = _
    rw [ih, send_personal_message_aliveConnIds]

theorem sendAll_connIds_mem (s : ConnectionManager) (m : Envelope)
    {L : List String} {u : String} (h : u ∈ L) :
    ((s.sendAll m L).2).connIds u = s.aliveConnIds u := by
  induction L generalizing s with
  | nil => cases h
  | cons a rest ih =>
    show ((((s.send_personal_message m a).2).sendAll m rest).2).connIds u = _
    by_cases hu : u ∈ rest
    · rw [ih _ hu, send_personal_message_aliveConnIds]
    · have ha : u = a := by
        rcases List.mem_cons.mp h with h' | h'
        · exact h'
        · exact absurd h' hu
      subst ha
      show (((s.send_personal_message m u).2).sendAll m rest).2.connIds u = _
      unfold connIds
      rw [sendAll_ac_notMem _ m hu]
      exact send_personal_message_connIds_self s m u

theorem sendAll_delivered_mem (s : ConnectionManager) (m : Envelope)
    (L : List String) (p : String × String) :
    p ∈ (s.sendAll m L).1 ↔ p.1 ∈ L ∧ p.2 ∈ s.aliveConnIds p.1 := by
  induction L generalizing s with
  | nil => simp [sendAll]
  | cons a rest ih =>
    show p ∈ (s.send_personal_message m a).1.image (fun k => (a, k)) ∪
        (((s.send_personal_message m a).2).sendAll m rest).1 ↔ _
    rw [Finset.mem_union, ih _, send_personal_message_delivered,
      send_personal_message_aliveConnIds]
    constructor
    · rintro (hp | ⟨h1, h2⟩)
      · rcases Finset.mem_image.mp hp with ⟨k, hk, hpk⟩
        refine ⟨?_, ?_⟩ <;> rw [← hpk]
        · exact List.mem_cons_self a rest
        · exact hk
      · exact ⟨List.mem_cons_of_mem a h1, h2⟩
    · rintro ⟨h1, h2⟩
      rcases List.mem_cons.mp h1 with h1 | h1
      · left
        refine Finset.mem_image.mpr ⟨p.2, ?_, ?_⟩
        · rw [← h1]; exact h2
        · rw [← h1]
      · right; exact ⟨h1, h2⟩

end ConnectionManager

/-- The set form of an optional excluded identity. -/
def excludedSet : Option String → Finset String
  | some x => {x}
  | none => ∅

theorem not_mem_excludedSet_iff {ex : Option String} {a : String} :
    a ∉ excludedSet ex ↔ some a ≠ ex := by
  cases ex <;> simp [excludedSet]

namespace ConnectionManager

theorem broadcast_uc (s : ConnectionManager) (m : Envelope) (c : String)
    (ex : Option String) :
    (s.broadcast_to_conversation m c ex).state.user_conversations =
      s.user_conversations := by
  unfold broadcast_to_conversation
  cases s.conversation_participants.lookup c with
  | none => rfl
  | some participants => exact sendAll_uc s m _

theorem broadcast_cp (s : ConnectionManager) (m : Envelope) (c : String)
    (ex : Option String) :
    (s.broadcast_to_conversation m c ex).state.conversation_participants =
      s.conversation_participants := by
  unfold broadcast_to_conversation
  cases s.conversation_participants.lookup c with
  | none => rfl
  | some participants => exact sendAll_cp s m _

theorem broadcast_attempted_mem (s : ConnectionManager) (m : Envelope)
    (c : String) (ex : Option String) (a : String) :
    a ∈ (s.broadcast_to_conversation m c ex).attempted ↔
      a ∈ s.get_conversation_participants c \ excludedSet ex := by
  unfold broadcast_to_conversation
  cases h : s.conversation_participants.lookup c with
  | none =>
    simp [get_conversation_participants, StrMap.getD, h]
  | some participants =>
    simp only [List.mem_filter, Finset.mem_sort, Finset.mem_sdiff,
      get_conversation_participants, StrMap.getD, h, Option.getD_some,
      decide_eq_true_eq]
    rw [not_mem_excludedSet_iff]

theorem broadcast_delivered_mem (s : ConnectionManager) (m : Envelope)
    (c : String) (ex : Option String) (p : String × String) :
    p ∈ (s.broadcast_to_conversation m c ex).delivered ↔
      p.1 ∈ s.get_conversation_participants c \ excludedSet ex ∧
        p.2 ∈ s.aliveConnIds p.1 := by
  unfold broadcast_to_conversation
  cases h : s.conversation_participants.lookup c with
  | none =>
    simp [get_conversation_participants, StrMap.getD, h]
  | some participants =>
    rw [show (⟨_, (s.sendAll m ((participants.sort (· ≤ ·)).filter
        (fun u => decide (some u ≠ ex)))).1, _⟩ : BroadcastOut).delivered =
        (s.sendAll m ((participants.sort (· ≤ ·)).filter
          (fun u => decide (some u ≠ ex)))).1 from rfl,
      sendAll_delivered_mem]
    simp only [List.mem_filter, Finset.mem_sort, Finset.mem_sdiff,
      get_conversation_participants, StrMap.getD, h, Option.getD_some,
      decide_eq_true_eq]
    rw [not_mem_excludedSet_iff]

theorem broadcast_connIds_mem (s : ConnectionManager) (m : Envelope)
    (c : String) (ex : Option String) {u : String}
    (h : u ∈ s.get_conversation_participants c \ excludedSet ex) :
    (s.broadcast_to_conversation m c ex).state.connIds u = s.aliveConnIds u := by
  have h' := (broadcast_attempted_mem s m c ex u).mpr h
  revert h'
  unfold broadcast_to_conversation
  cases hc : s.conversation_participants.lookup c with
  | none => intro h'; cases h'
  | some participants =>
    intro h'
    exact sendAll_connIds_mem s m h'

end ConnectionManager

/-!
## Concrete states used by witnesses and counterexamples
-/

/-- An alive transport. -/
def wsAlive : WebSocket := ⟨true⟩

/-- A dead transport: `send_text` on it raises. -/
def wsDead : WebSocket := ⟨false⟩

/-- A throwaway envelope used where the broadcast content is irrelevant. -/
def pingEnvelope : Envelope := ⟨"message_received", .errorData "m", "t"⟩

/-- Two users in conversation c1: u1 with one alive (k1) and one dead (k2)
connection, u2 with one alive connection (k3). -/
def demoState : ConnectionManager where
  active_connections :=
    ⟨{"u1", "u2"}, fun u =>
      if u = "u1" then ⟨{"k1", "k2"}, fun k => if k = "k2" then wsDead else wsAlive⟩
      else ⟨{"k3"}, fun _ => wsAlive⟩⟩
  user_conversations := ⟨{"u1", "u2"}, fun _ => {"c1"}⟩
  conversation_participants := ⟨{"c1"}, fun _ => {"u1", "u2"}⟩

/-- One user u1 whose only connection k1 is dead, member of conversation c1. -/
def deadOnlyState : ConnectionManager where
  active_connections := ⟨{"u1"}, fun _ => ⟨{"k1"}, fun _ => wsDead⟩⟩
  user_conversations := ⟨{"u1"}, fun _ => {"c1"}⟩
  conversation_participants := ⟨{"c1"}, fun _ => {"u1"}⟩

/-- A conversation c1 whose member set has been emptied, and one online
user u1 with a single alive connection. -/
def emptyConvState : ConnectionManager where
  active_connections := ⟨{"u1"}, fun _ => ⟨{"k1"}, fun _ => wsAlive⟩⟩
  user_conversations := ⟨{"u1"}, fun _ => ∅⟩
  conversation_participants := ⟨{"c1"}, fun _ => ∅⟩

/-!
## The claims
-/

/-- Claim C6: for every registry state and identity, `is_user_online` holds
exactly when `get_user_connection_count` is positive.  The biconditional
holds for every state of the model, in particular for every reachable one;
no non-empty-entry invariant is even needed, because both queries test the
same dictionary entry. -/
theorem claim_C6_online_iff_positive_count :
    ∀ (s : ConnectionManager) (user_id : String),
      s.is_user_online user_id = true ↔ 0 < s.get_user_connection_count user_id := by
  intro s u
  unfold ConnectionManager.is_user_online ConnectionManager.get_user_connection_count
  cases s.active_connections.lookup u with
  | none => simp
  | some conns => simp

/-- Claim C7: `get_stats` on the empty registry returns all-zero counters
with average 0 (the `max(1, n)` guard prevents a zero divisor), and as soon
as at least one identity is online the average is exactly total connections
divided by the number of online identities. -/
theorem claim_C7_stats_no_division_fault :
    ConnectionManager.init.get_stats =
      { total_users_online := 0, total_connections := 0, total_conversations := 0,
        average_connections_per_user := 0 } ∧
    ∀ s : ConnectionManager, 0 < s.get_stats.total_users_online →
      s.get_stats.average_connections_per_user =
        (s.get_stats.total_connections : ℚ) / (s.get_stats.total_users_online : ℚ) := by
  constructor
  · simp [ConnectionManager.get_stats, ConnectionManager.init, StrMap.emptyMap,
      ConnectionManager.Stats.mk.injEq]
  · intro s h
    unfold ConnectionManager.get_stats at h ⊢
    dsimp only at h ⊢
    rw [Nat.max_eq_right h]

/-- Claim C7 witness: on a state with one online identity the average is
total connections over online identities. -/
theorem claim_C7_stats_witness :
    0 < emptyConvState.get_stats.total_users_online ∧
      emptyConvState.get_stats.average_connections_per_user =
        (emptyConvState.get_stats.total_connections : ℚ) /
          (emptyConvState.get_stats.total_users_online : ℚ) :=
  ⟨by decide, claim_C7_stats_no_division_fault.2 emptyConvState (by decide)⟩

/-- Claim C1 as stated is false: `send_personal_message` prunes failed
connections and, when the set empties, deletes the identity from the
connection index only; it never performs the conversation-membership
cascade that `disconnect` performs.  Concretely: u1's only connection is
dead, so sending empties its connection set, yet u1 stays in
`user_conversations` and in c1's member set. -/
theorem claim_C1_counterexample :
    "u1" ∉ ((deadOnlyState.send_personal_message pingEnvelope "u1").2).active_connections.keys ∧
    ((deadOnlyState.send_personal_message pingEnvelope "u1").2).user_conversations.lookup
        "u1" = some {"c1"} ∧
    "u1" ∈ ((deadOnlyState.send_personal_message pingEnvelope "u1").2).get_conversation_participants
        "c1" := by
  refine ⟨?_, ?_, ?_⟩ <;> decide

/-- Claim C1 amended: after `send_personal_message`, exactly the failed
connections have been removed (the registered set becomes the alive set)
and the identity is deleted from the connection index when nothing alive
remains, but `user_conversations` and `conversation_participants` are left
untouched — there is no full retirement. -/
theorem claim_C1_amended_prune_without_retirement :
    ∀ (s : ConnectionManager) (m : Envelope) (u : String),
      ((s.send_personal_message m u).2).user_conversations = s.user_conversations ∧
      ((s.send_personal_message m u).2).conversation_participants =
        s.conversation_participants ∧
      ((s.send_personal_message m u).2).connIds u = s.aliveConnIds u ∧
      (s.aliveConnIds u = ∅ →
        ((s.send_personal_message m u).2).active_connections.lookup u = none) := by
  intro s m u
  refine ⟨ConnectionManager.send_personal_message_uc s m u,
    ConnectionManager.send_personal_message_cp s m u,
    ConnectionManager.send_personal_message_connIds_self s m u, ?_⟩
  intro halive
  unfold ConnectionManager.send_personal_message
  revert halive
  unfold ConnectionManager.aliveConnIds
  cases h : s.active_connections.lookup u with
  | none => intro _; exact h
  | some conns =>
    intro halive
    dsimp only
    rw [if_pos halive]
    exact s.active_connections.lookup_erase_self u

/-- Claim C1 amended, witness: with u1's only connection dead, the alive
set is empty and the identity disappears from the connection index. -/
theorem claim_C1_amended_witness :
    deadOnlyState.aliveConnIds "u1" = ∅ ∧
      ((deadOnlyState.send_personal_message pingEnvelope "u1").2).active_connections.lookup
        "u1" = none :=
  ⟨by decide,
    (claim_C1_amended_prune_without_retirement deadOnlyState pingEnvelope "u1").2.2.2
      (by decide)⟩

/-!
## Additional StrMap lemmas
-/

namespace StrMap

variable {V : Type}

theorem contains_insert_self (m : StrMap V) (k : String) (v : V) :
    (m.insert k v).contains k := by
  simp [contains, insert]

theorem getD_insert_self (m : StrMap V) (k : String) (v dflt : V) :
    (m.insert k v).getD k dflt = v := by
  simp [getD, lookup_insert_self]

theorem getD_of_not_mem (m : StrMap V) {k : String} (dflt : V) (h : k ∉ m.keys) :
    m.getD k dflt = dflt := by
  simp [getD, lookup, h]

theorem insert_insert_self (m : StrMap V) (k : String) (v : V) :
    (m.insert k v).insert k v = m.insert k v := by
  unfold insert
  congr 1
  · exact Finset.insert_idem k m.keys
  · funext x
    by_cases hx : x = k <;> simp [hx]

theorem insert_self_of_lookup (m : StrMap V) {k : String} {v : V}
    (h : m.lookup k = some v) : m.insert k v = m := by
  obtain ⟨hk, hv⟩ := lookup_eq_some_iff.mp h
  unfold insert
  conv_rhs => rw [show m = ⟨m.keys, m.val⟩ from rfl]
  congr 1
  · exact Finset.insert_eq_self.mpr hk
  · funext x
    by_cases hx : x = k
    · subst hx; simp [hv]
    · simp [hx]

theorem erase_of_not_mem (m : StrMap V) {k : String} (h : k ∉ m.keys) :
    m.erase k = m := by
  unfold erase
  conv_rhs => rw [show m = ⟨m.keys, m.val⟩ from rfl]
  congr 1
  exact Finset.erase_eq_of_not_mem h

end StrMap

/-- Claim C10: once a conversation id has a key in
`conversation_participants`, no operation deletes it: leave
(`remove_user_from_conversation`) and retirement (`disconnect`) preserve
the key set, and broadcast pruning (`send_personal_message`,
`broadcast_to_conversation`) leaves `conversation_participants` entirely
untouched.  A key mapped to the empty set is indistinguishable from a
missing key through `get_conversation_participants` (both read as ∅), yet
`get_stats` keeps counting it in `total_conversations`. -/
theorem claim_C10_conversation_keys_persist :
    ∀ (s : ConnectionManager) (u c cid : String) (m : Envelope) (ex : Option String),
      (s.remove_user_from_conversation u c).conversation_participants.keys =
        s.conversation_participants.keys ∧
      (s.disconnect u cid).conversation_participants.keys =
        s.conversation_participants.keys ∧
      ((s.send_personal_message m u).2).conversation_participants =
        s.conversation_participants ∧
      (s.broadcast_to_conversation m c ex).state.conversation_participants =
        s.conversation_participants ∧
      (s.conversation_participants.lookup c = some ∅ →
        s.get_conversation_participants c = ∅) ∧
      (s.conversation_participants.lookup c = none →
        s.get_conversation_participants c = ∅) ∧
      s.get_stats.total_conversations = s.conversation_participants.keys.card := by
  intro s u c cid m ex
  refine ⟨?_, ?_, ConnectionManager.send_personal_message_cp s m u,
    ConnectionManager.broadcast_cp s m c ex, ?_, ?_, rfl⟩
  · unfold ConnectionManager.remove_user_from_conversation
    dsimp only
    by_cases h : s.conversation_participants.contains c
    · rw [if_pos h]
      exact Finset.insert_eq_self.mpr h
    · rw [if_neg h]
  · unfold ConnectionManager.disconnect
    cases hl : s.active_connections.lookup u with
    | none => rfl
    | some conns =>
      dsimp only
      split
      · cases s.user_conversations.lookup u <;> rfl
      · rfl
  · intro h
    unfold ConnectionManager.get_conversation_participants StrMap.getD
    rw [h]
    rfl
  · intro h
    unfold ConnectionManager.get_conversation_participants StrMap.getD
    rw [h]
    rfl

/-- Claim C10 witness: in a state where conversation c1 has an emptied
member set and key zz is absent, both read as ∅, and the emptied key is
still counted by `get_stats`. -/
theorem claim_C10_witness :
    (emptyConvState.conversation_participants.lookup "c1" = some ∅ ∧
      emptyConvState.get_conversation_participants "c1" = ∅) ∧
    (emptyConvState.conversation_participants.lookup "zz" = none ∧
      emptyConvState.get_conversation_participants "zz" = ∅) ∧
    emptyConvState.get_stats.total_conversations = 1 :=
  ⟨⟨by decide,
      (claim_C10_conversation_keys_persist emptyConvState "u1" "c1" "k1" pingEnvelope
        none).2.2.2.2.1 (by decide)⟩,
    ⟨by decide,
      (claim_C10_conversation_keys_persist emptyConvState "u1" "zz" "k1" pingEnvelope
        none).2.2.2.2.2.1 (by decide)⟩,
    by decide⟩

/-- Claim C4: retiring an identity's last registered connection performs
the full cleanup in the single `disconnect` transition — afterwards the
identity is gone from the connection index, from `user_conversations`, and
from every conversation's member set (there is no state in which one index
is cleaned and the other is not, because both conclusions hold of the one
post-state).  The membership conclusion uses the reachable-state
consistency hypothesis that every member-set occurrence of the identity is
tracked in its reverse index.  Retiring an already-absent connection is a
no-op returning the state unchanged (for any state whose present
connection entries are non-empty, as admission guarantees). -/
theorem claim_C4_last_connection_full_retirement :
    ∀ (s : ConnectionManager) (u cid : String),
      (s.connIds u = {cid} →
        (∀ c ∈ s.conversation_participants.keys,
          u ∈ s.conversation_participants.val c → c ∈ s.get_user_conversations u) →
        ((s.disconnect u cid).active_connections.lookup u = none ∧
          (s.disconnect u cid).user_conversations.lookup u = none ∧
          ∀ c, u ∉ (s.disconnect u cid).get_conversation_participants c)) ∧
      (cid ∉ s.connIds u →
        (u ∈ s.active_connections.keys → s.connIds u ≠ ∅) →
        s.disconnect u cid = s) := by
  intro s u cid
  constructor
  · intro h1 h2
    unfold ConnectionManager.connIds at h1
    revert h1
    cases hl : s.active_connections.lookup u with
    | none =>
      intro h1
      have h1' : (∅ : Finset String) = {cid} := h1
      exact absurd h1'.symm (Finset.singleton_ne_empty cid)
    | some conns =>
      intro h1
      have h1' : conns.keys = {cid} := h1
      have hkeys : (conns.erase cid).keys = ∅ := by
        show conns.keys.erase cid = ∅
        rw [h1']
        exact Finset.erase_singleton cid
      cases hu : s.user_conversations.lookup u with
      | none =>
        have hres : s.disconnect u cid =
            { s with active_connections := s.active_connections.erase u } := by
          unfold ConnectionManager.disconnect
          rw [hl]
          dsimp only
          rw [if_pos hkeys, hu]
        rw [hres]
        refine ⟨s.active_connections.lookup_erase_self u, hu, ?_⟩
        intro c hc
        unfold ConnectionManager.get_conversation_participants StrMap.getD
          StrMap.lookup at hc
        dsimp only at hc
        by_cases hck : c ∈ s.conversation_participants.keys
        · rw [if_pos hck] at hc
          have hmem := h2 c hck hc
          unfold ConnectionManager.get_user_conversations StrMap.getD at hmem
          rw [hu] at hmem
          exact absurd hmem (Finset.not_mem_empty c)
        · rw [if_neg hck] at hc
          exact absurd hc (Finset.not_mem_empty u)
      | some convs =>
        have hres : s.disconnect u cid =
            { active_connections := s.active_connections.erase u
              user_conversations := s.user_conversations.erase u
              conversation_participants :=
                ⟨s.conversation_participants.keys,
                 fun c =>
                   if c ∈ convs ∧ c ∈ s.conversation_participants.keys then
                     (s.conversation_participants.val c).erase u
                   else s.conversation_participants.val c⟩ } := by
          unfold ConnectionManager.disconnect
          rw [hl]
          dsimp only
          rw [if_pos hkeys, hu]
        rw [hres]
        refine ⟨s.active_connections.lookup_erase_self u,
          s.user_conversations.lookup_erase_self u, ?_⟩
        intro c hc
        unfold ConnectionManager.get_conversation_participants StrMap.getD
          StrMap.lookup at hc
        dsimp only at hc
        by_cases hck : c ∈ s.conversation_participants.keys
        · rw [if_pos hck] at hc
          by_cases hcv : c ∈ convs
          · rw [if_pos ⟨hcv, hck⟩] at hc
            exact absurd hc (Finset.not_mem_erase u _)
          · have hnc : ¬(c ∈ convs ∧ c ∈ s.conversation_participants.keys) :=
              fun hand => hcv hand.1
            rw [if_neg hnc] at hc
            have hmem := h2 c hck hc
            unfold ConnectionManager.get_user_conversations StrMap.getD at hmem
            rw [hu] at hmem
            exact absurd hmem hcv
        · rw [if_neg hck] at hc
          exact absurd hc (Finset.not_mem_empty u)
  · intro h1 h2
    unfold ConnectionManager.connIds at h1 h2
    revert h1 h2
    cases hl : s.active_connections.lookup u with
    | none =>
      intro _ _
      unfold ConnectionManager.disconnect
      rw [hl]
    | some conns =>
      intro h1 h2
      have h1' : cid ∉ conns.keys := h1
      have h2' : u ∈ s.active_connections.keys → conns.keys ≠ ∅ := h2
      unfold ConnectionManager.disconnect
      rw [hl]
      dsimp only
      have hu : u ∈ s.active_connections.keys :=
        (StrMap.lookup_eq_some_iff.mp hl).1
      have hkeys : (conns.erase cid).keys = conns.keys := by
        show conns.keys.erase cid = conns.keys
        exact Finset.erase_eq_of_not_mem h1'
      rw [if_neg (by rw [hkeys]; exact h2' hu)]
      rw [StrMap.erase_of_not_mem conns h1',
        StrMap.insert_self_of_lookup s.active_connections hl]

/-- Claim C4 witness: u1's last (dead or not, irrelevant here) connection
k1 is retired from `deadOnlyState`, wiping both indexes; and retiring an
absent connection k9 of u1 in `demoState` changes nothing. -/
theorem claim_C4_witness :
    (deadOnlyState.connIds "u1" = {"k1"} ∧
      (deadOnlyState.disconnect "u1" "k1").user_conversations.lookup "u1" = none ∧
      "u1" ∉ (deadOnlyState.disconnect "u1" "k1").get_conversation_participants "c1") ∧
    ("k9" ∉ demoState.connIds "u1" ∧ demoState.disconnect "u1" "k9" = demoState) := by
  have h₁ := (claim_C4_last_connection_full_retirement deadOnlyState "u1" "k1").1
    (by decide) (by decide)
  have h₂ := (claim_C4_last_connection_full_retirement demoState "u1" "k9").2
    (by decide) (by decide)
  exact ⟨⟨by decide, h₁.2.1, h₁.2.2 "c1"⟩, ⟨by decide, h₂⟩⟩

/-- The per-dictionary transform of `add_user_to_conversation` on each of
its two indexes: ensure the key exists, then add the element to its set. -/
def joinIn (m : StrMap (Finset String)) (k x : String) : StrMap (Finset String) :=
  let m₀ := if m.contains k then m else m.insert k ∅
  m₀.insert k (Insert.insert x (m₀.getD k ∅))

/-- The per-dictionary transform of `remove_user_from_conversation`:
discard the element from the key's set when the key exists. -/
def discardIn (m : StrMap (Finset String)) (k x : String) : StrMap (Finset String) :=
  if m.contains k then m.insert k ((m.getD k ∅).erase x) else m

theorem add_user_eq (s : ConnectionManager) (u c : String) :
    s.add_user_to_conversation u c =
      { s with user_conversations := joinIn s.user_conversations u c
               conversation_participants := joinIn s.conversation_participants c u } :=
  rfl

theorem remove_user_eq (s : ConnectionManager) (u c : String) :
    s.remove_user_from_conversation u c =
      { s with user_conversations := discardIn s.user_conversations u c
               conversation_participants := discardIn s.conversation_participants c u } :=
  rfl

theorem joinIn_getD (m : StrMap (Finset String)) (k x : String) :
    (joinIn m k x).getD k ∅ = Insert.insert x (m.getD k ∅) := by
  unfold joinIn
  dsimp only
  rw [StrMap.getD_insert_self]
  congr 1
  by_cases h : m.contains k
  · rw [if_pos h]
  · rw [if_neg h, StrMap.getD_insert_self]
    have h' : k ∉ m.keys := h
    rw [StrMap.getD_of_not_mem m ∅ h']

theorem discardIn_getD (m : StrMap (Finset String)) (k x : String) :
    (discardIn m k x).getD k ∅ = (m.getD k ∅).erase x := by
  unfold discardIn
  by_cases h : m.contains k
  · rw [if_pos h, StrMap.getD_insert_self]
  · rw [if_neg h]
    have h' : k ∉ m.keys := h
    rw [StrMap.getD_of_not_mem m ∅ h', Finset.erase_empty]

theorem joinIn_eq_self (p : StrMap (Finset String)) (k x : String)
    {W : Finset String} (hx : x ∈ W) :
    joinIn (p.insert k W) k x = p.insert k W := by
  unfold joinIn
  dsimp only
  rw [if_pos (StrMap.contains_insert_self p k W), StrMap.getD_insert_self,
    Finset.insert_eq_self.mpr hx]
  exact StrMap.insert_insert_self p k W

theorem joinIn_idem (m : StrMap (Finset String)) (k x : String) :
    joinIn (joinIn m k x) k x = joinIn m k x := by
  have h : joinIn m k x =
      (if m.contains k then m else m.insert k ∅).insert k
        (Insert.insert x ((if m.contains k then m else m.insert k ∅).getD k ∅)) :=
    rfl
  rw [h]
  exact joinIn_eq_self _ _ _ (Finset.mem_insert_self x _)

theorem discardIn_idem (m : StrMap (Finset String)) (k x : String) :
    discardIn (discardIn m k x) k x = discardIn m k x := by
  by_cases h : m.contains k
  · have h1 : discardIn m k x = m.insert k ((m.getD k ∅).erase x) := by
      unfold discardIn
      rw [if_pos h]
    rw [h1]
    unfold discardIn
    rw [if_pos (StrMap.contains_insert_self _ _ _), StrMap.getD_insert_self,
      Finset.erase_idem]
    exact StrMap.insert_insert_self _ _ _
  · have h1 : discardIn m k x = m := by
      unfold discardIn
      rw [if_neg h]
    rw [h1, h1]

/-- Claim C8 as stated is false: if the identity was already a member of
the conversation, `add_user_to_conversation` is a no-op but
`remove_user_from_conversation` removes it, so the round trip does not
restore the original membership.  Concretely u1 is already in c1 in
`demoState`; after join-then-leave, c1's member set has lost u1. -/
theorem claim_C8_counterexample :
    ((demoState.add_user_to_conversation "u1" "c1").remove_user_from_conversation
        "u1" "c1").get_conversation_participants "c1" ≠
      demoState.get_conversation_participants "c1" := by
  decide

/-- Claim C8 amended: for a pair that is not already joined (the identity
is not a member of the conversation and the conversation is not in its
tracked set), join followed by leave restores both observable memberships;
if the identity was already a member, the round trip instead removes it
from the conversation's member set; and each operation is idempotent in
any state. -/
theorem claim_C8_amended_roundtrip :
    ∀ (s : ConnectionManager) (u c : String),
      (u ∉ s.get_conversation_participants c →
        c ∉ s.get_user_conversations u →
        (((s.add_user_to_conversation u c).remove_user_from_conversation
            u c).get_conversation_participants c =
          s.get_conversation_participants c ∧
        ((s.add_user_to_conversation u c).remove_user_from_conversation
            u c).get_user_conversations u =
          s.get_user_conversations u)) ∧
      (u ∈ s.get_conversation_participants c →
        u ∉ ((s.add_user_to_conversation u c).remove_user_from_conversation
          u c).get_conversation_participants c) ∧
      (s.add_user_to_conversation u c).add_user_to_conversation u c =
        s.add_user_to_conversation u c ∧
      (s.remove_user_from_conversation u c).remove_user_from_conversation u c =
        s.remove_user_from_conversation u c := by
  intro s u c
  refine ⟨?_, ?_, ?_, ?_⟩
  · intro hcp huc
    constructor
    · show (discardIn (joinIn s.conversation_participants c u) c u).getD c ∅ = _
      rw [discardIn_getD, joinIn_getD]
      exact Finset.erase_insert hcp
    · show (discardIn (joinIn s.user_conversations u c) u c).getD u ∅ = _
      rw [discardIn_getD, joinIn_getD]
      exact Finset.erase_insert huc
  · intro _hmem
    show u ∉ (discardIn (joinIn s.conversation_participants c u) c u).getD c ∅
    rw [discardIn_getD]
    exact Finset.not_mem_erase u _
  · rw [add_user_eq s u c, add_user_eq]
    dsimp only
    rw [joinIn_idem, joinIn_idem]
  · rw [remove_user_eq s u c, remove_user_eq]
    dsimp only
    rw [discardIn_idem, discardIn_idem]

/-- Claim C8 amended, witness: in `emptyConvState` the pair (u1, c1) is
not joined and join-then-leave restores c1's (empty) member set; in
`demoState` u1 is already a member of c1 and the round trip removes it. -/
theorem claim_C8_witness :
    (("u1" ∉ emptyConvState.get_conversation_participants "c1" ∧
        "c1" ∉ emptyConvState.get_user_conversations "u1") ∧
      ((emptyConvState.add_user_to_conversation "u1" "c1").remove_user_from_conversation
          "u1" "c1").get_conversation_participants "c1" =
        emptyConvState.get_conversation_participants "c1") ∧
    ("u1" ∈ demoState.get_conversation_participants "c1" ∧
      "u1" ∉ ((demoState.add_user_to_conversation "u1"
        "c1").remove_user_from_conversation
        "u1" "c1").get_conversation_participants "c1") :=
  ⟨⟨⟨by decide, by decide⟩,
      ((claim_C8_amended_roundtrip emptyConvState "u1" "c1").1 (by decide)
        (by decide)).1⟩,
    ⟨by decide,
      (claim_C8_amended_roundtrip demoState "u1" "c1").2.1 (by decide)⟩⟩

/-- Claim C3: `broadcast_to_conversation` attempts delivery for exactly the
members of the conversation minus the excluded identity, and for a
well-formed `message_send` the dispatcher performs exactly one broadcast,
of a `message_received` envelope, excluding the sender — so no delivered
connection belongs to the sender. -/
theorem claim_C3_broadcast_exact_recipients :
    (∀ (s : ConnectionManager) (m : Envelope) (c : String) (ex : Option String)
        (a : String),
      a ∈ (s.broadcast_to_conversation m c ex).attempted ↔
        a ∈ s.get_conversation_participants c \ excludedSet ex) ∧
    (∀ (s : ConnectionManager) (data : InData) (u now c t : String),
      data.conversation_id = some c → c ≠ "" → data.content = some t → t ≠ "" →
      ∃ f, (handle_websocket_event (some "message_send") data u now s).fanouts = [f] ∧
        f.envelope.event_type = "message_received" ∧
        (∀ a, a ∈ f.attempted ↔ a ∈ s.get_conversation_participants c \ {u}) ∧
        (∀ p ∈ f.delivered, p.1 ≠ u)) := by
  constructor
  · exact fun s m c ex a => ConnectionManager.broadcast_attempted_mem s m c ex a
  · intro s data u now c t hc hc0 ht ht0
    have hcond : ¬(c = "" ∨ t = "") := by
      rintro (h | h)
      · exact hc0 h
      · exact ht0 h
    unfold handle_websocket_event
    rw [if_pos rfl]
    unfold handle_message_send
    rw [hc, ht]
    dsimp only
    rw [if_neg hcond]
    refine ⟨_, rfl, rfl, ?_, ?_⟩
    · intro a
      exact ConnectionManager.broadcast_attempted_mem s _ c (some u) a
    · intro p hp
      have hmem :=
        (ConnectionManager.broadcast_delivered_mem s _ c (some u) p).mp hp
      have hne : p.1 ∉ excludedSet (some u) := (Finset.mem_sdiff.mp hmem.1).2
      simpa [excludedSet] using hne

/-- Claim C3 witness: for a concrete `message_send` from u1 into c1,
exactly one `message_received` fanout happens, u2 is an attempted
recipient, u1 is not, and no delivered connection is u1's. -/
theorem claim_C3_witness :
    ((⟨some "c1", some "hi", none, none⟩ : InData).conversation_id = some "c1" ∧
      (⟨some "c1", some "hi", none, none⟩ : InData).content = some "hi") ∧
    (∃ f, (handle_websocket_event (some "message_send")
        ⟨some "c1", some "hi", none, none⟩ "u1" "t" demoState).fanouts = [f] ∧
      f.envelope.event_type = "message_received" ∧
      (∀ a, a ∈ f.attempted ↔
        a ∈ demoState.get_conversation_participants "c1" \ {"u1"}) ∧
      (∀ p ∈ f.delivered, p.1 ≠ "u1")) :=
  ⟨⟨rfl, rfl⟩,
    claim_C3_broadcast_exact_recipients.2 demoState ⟨some "c1", some "hi", none, none⟩
      "u1" "t" "c1" "hi" rfl (by decide) rfl (by decide)⟩

/-- Claim C5: a dead connection of one recipient does not stop the fanout —
every alive connection of every non-excluded member receives the envelope,
including the failing identity's other alive connections — and the dead
connection is gone from the registry's connection index afterwards. -/
theorem claim_C5_partial_failure_isolated :
    ∀ (s : ConnectionManager) (m : Envelope) (c : String) (ex : Option String)
      (u d : String),
      u ∈ s.get_conversation_participants c \ excludedSet ex →
      d ∈ s.connIds u → d ∉ s.aliveConnIds u →
      ((∀ v k, v ∈ s.get_conversation_participants c \ excludedSet ex →
          k ∈ s.aliveConnIds v →
          (v, k) ∈ (s.broadcast_to_conversation m c ex).delivered) ∧
        d ∉ (s.broadcast_to_conversation m c ex).state.connIds u) := by
  intro s m c ex u d hu _hd hdead
  constructor
  · intro v k hv hk
    exact (ConnectionManager.broadcast_delivered_mem s m c ex (v, k)).mpr ⟨hv, hk⟩
  · rw [ConnectionManager.broadcast_connIds_mem s m c ex hu]
    exact hdead

/-- Claim C5 witness: broadcasting over c1 in `demoState`, where u1's
connection k2 is dead: u2's connection k3 and u1's other connection k1
both receive the envelope, and k2 is absent from the registry afterward. -/
theorem claim_C5_witness :
    ("u1" ∈ demoState.get_conversation_participants "c1" \ excludedSet none ∧
      "k2" ∈ demoState.connIds "u1" ∧ "k2" ∉ demoState.aliveConnIds "u1") ∧
    ("u2", "k3") ∈ (demoState.broadcast_to_conversation pingEnvelope "c1" none).delivered ∧
    ("u1", "k1") ∈ (demoState.broadcast_to_conversation pingEnvelope "c1" none).delivered ∧
    "k2" ∉ (demoState.broadcast_to_conversation pingEnvelope "c1" none).state.connIds "u1" := by
  have h := claim_C5_partial_failure_isolated demoState pingEnvelope "c1" none "u1" "k2"
    (by decide) (by decide) (by decide)
  exact ⟨⟨by decide, by decide, by decide⟩,
    h.1 "u2" "k3" (by decide) (by decide),
    h.1 "u1" "k1" (by decide) (by decide),
    h.2⟩

/-- Claim C9: for a `leave_conversation` event carrying a non-falsy
conversation id (the source silently returns on a missing or empty one),
the dispatcher performs exactly one broadcast, of the
`user_left_conversation` envelope, whose attempted recipients are computed
from the pre-leave member set minus the sender; the post state is
literally the removal applied after the broadcast, and in it the sender is
out of both membership indexes. -/
theorem claim_C9_leave_notifies_before_removal :
    ∀ (s : ConnectionManager) (data : InData) (u now c : String),
      data.conversation_id = some c → c ≠ "" →
      ∃ f, (handle_websocket_event (some "leave_conversation") data u now s).fanouts =
          [f] ∧
        f.envelope = ⟨"user_left_conversation", .userLeft c u, now⟩ ∧
        (∀ a, a ∈ f.attempted ↔ a ∈ s.get_conversation_participants c \ {u}) ∧
        (handle_websocket_event (some "leave_conversation") data u now s).state =
          ((s.broadcast_to_conversation f.envelope c
            (some u)).state.remove_user_from_conversation u c) ∧
        u ∉ (handle_websocket_event (some "leave_conversation") data u now
          s).state.get_conversation_participants c ∧
        c ∉ (handle_websocket_event (some "leave_conversation") data u now
          s).state.get_user_conversations u := by
  intro s data u now c hc hc0
  unfold handle_websocket_event
  rw [if_neg (by decide), if_neg (by decide), if_neg (by decide),
    if_neg (by decide), if_pos rfl]
  unfold handle_leave_conversation
  rw [hc]
  dsimp only
  rw [if_neg hc0]
  unfold ConnectionManager.notify_user_left_conversation
  dsimp only
  refine ⟨_, rfl, rfl, ?_, rfl, ?_, ?_⟩
  · intro a
    exact ConnectionManager.broadcast_attempted_mem s _ c (some u) a
  · show u ∉ (discardIn _ c u).getD c ∅
    rw [discardIn_getD]
    exact Finset.not_mem_erase u _
  · show c ∉ (discardIn _ u c).getD u ∅
    rw [discardIn_getD]
    exact Finset.not_mem_erase c _

/-- Claim C9 witness: u1 leaving c1 in `demoState`. -/
theorem claim_C9_witness :
    ((⟨some "c1", none, none, none⟩ : InData).conversation_id = some "c1" ∧
      "c1" ≠ "") ∧
    (∃ f, (handle_websocket_event (some "leave_conversation")
        ⟨some "c1", none, none, none⟩ "u1" "t" demoState).fanouts = [f] ∧
      f.envelope = ⟨"user_left_conversation", .userLeft "c1" "u1", "t"⟩ ∧
      (∀ a, a ∈ f.attempted ↔
        a ∈ demoState.get_conversation_participants "c1" \ {"u1"}) ∧
      (handle_websocket_event (some "leave_conversation")
        ⟨some "c1", none, none, none⟩ "u1" "t" demoState).state =
        ((demoState.broadcast_to_conversation f.envelope "c1"
          (some "u1")).state.remove_user_from_conversation "u1" "c1") ∧
      "u1" ∉ (handle_websocket_event (some "leave_conversation")
        ⟨some "c1", none, none, none⟩ "u1" "t"
        demoState).state.get_conversation_participants "c1" ∧
      "c1" ∉ (handle_websocket_event (some "leave_conversation")
        ⟨some "c1", none, none, none⟩ "u1" "t"
        demoState).state.get_user_conversations "u1") :=
  ⟨⟨rfl, by decide⟩,
    claim_C9_leave_notifies_before_removal demoState ⟨some "c1", none, none, none⟩
      "u1" "t" "c1" rfl (by decide)⟩

/-- Claim C2 as stated is false for undecodable input: when `json.loads`
raises, the exception escapes the read loop, no error envelope is sent,
and the endpoint's handler retires the connection (here k1 is removed,
leaving u1's other connection k2).  The loop does not continue. -/
theorem claim_C2_counterexample :
    (read_loop_step .undecodable "u1" "k1" "t" demoState).toSender = [] ∧
    (read_loop_step .undecodable "u1" "k1" "t" demoState).connectionOpen = false ∧
    (read_loop_step .undecodable "u1" "k1" "t" demoState).state.connIds "u1" =
      {"k2"} := by
  refine ⟨rfl, rfl, ?_⟩
  decide

/-- Claim C2 amended: an inbound frame that decodes but lacks `event_type`
is answered with exactly one error envelope to the sender and the
connection stays open with the registry untouched; an inbound frame that
cannot be decoded produces no error envelope — the connection is retired
via `disconnect` and the read loop ends. -/
theorem claim_C2_amended_malformed_handling :
    ∀ (s : ConnectionManager) (u cid now : String) (data : InData),
      ((read_loop_step (.decoded none data) u cid now s).toSender =
          [errorEnvelope "Unknown event type: None" now] ∧
        (read_loop_step (.decoded none data) u cid now s).fanouts = [] ∧
        (read_loop_step (.decoded none data) u cid now s).state = s ∧
        (read_loop_step (.decoded none data) u cid now s).connectionOpen = true) ∧
      ((read_loop_step .undecodable u cid now s).toSender = [] ∧
        (read_loop_step .undecodable u cid now s).fanouts = [] ∧
        (read_loop_step .undecodable u cid now s).state = s.disconnect u cid ∧
        (read_loop_step .undecodable u cid now s).connectionOpen = false) := by
  intro s u cid now data
  exact ⟨⟨rfl, rfl, rfl, rfl⟩, rfl, rfl, rfl, rfl⟩
